import Mathlib

/-!
Verification of the incremental batched extraction-and-consolidation pipeline:
a shallow embedding of the Python sources (add_entities_clay.py,
beatbook_generator.py, create_beatbook.py, entity_extractor.py,
classify_topics.py) together with proofs about the embedded definitions.

External effects are made explicit: the LLM oracle is an abstract function
parameter, the seeded random module is explicit state passing, and file
persistence is the output list threaded through the fold.
-/

/-! ## Basic string utilities shared by the embedded scripts -/

/-- Substring test on character lists: `needle` occurs contiguously in `hay`.
Mirrors Python's `needle in hay` for strings. -/
def listInfixB (needle : List Char) : List Char → Bool
  | [] => needle.isEmpty
  | c :: rest => needle.isPrefixOf (c :: rest) || listInfixB needle rest

/-- Python's `needle in hay` for strings. -/
def strContains (hay needle : String) : Bool :=
  listInfixB needle.toList hay.toList

/-- Python's `s.strip(chars)`: remove the characters of `cs` from both ends. -/
def stripChars (cs : List Char) (s : String) : String :=
  String.mk (((s.toList.dropWhile (fun c => cs.contains c)).reverse.dropWhile
    (fun c => cs.contains c)).reverse)

/-- Python's `s.strip()`: remove whitespace from both ends. -/
def strTrim (s : String) : String :=
  String.mk (((s.toList.dropWhile Char.isWhitespace).reverse.dropWhile
    Char.isWhitespace).reverse)

/-- Python's `s.lower()` on the characters of a string. -/
def strLower (s : String) : String := String.mk (s.toList.map Char.toLower)

/-- Python's `s.upper()` on the characters of a string. -/
def strUpper (s : String) : String := String.mk (s.toList.map Char.toUpper)

/-- Python's `s.split(sep)` for a one-character separator, on a character
list: empty pieces are kept, and the empty input yields one empty piece. -/
def splitOnChar (sep : Char) : List Char → List (List Char)
  | [] => [[]]
  | c :: rest =>
    if c = sep then [] :: splitOnChar sep rest
    else
      match splitOnChar sep rest with
      | [] => [[c]]
      | w :: ws => (c :: w) :: ws

/-- The number denoted by a digit list (applied after an all-digits check). -/
def charsToNat (cs : List Char) : Nat :=
  cs.foldl (fun acc c => acc * 10 + (c.toNat - 48)) 0

/-- Python's `s.split()` (split on whitespace runs, dropping empty pieces),
on a character list. -/
def splitWsList : List Char → List String
  | [] => []
  | c :: rest =>
    if c.isWhitespace then splitWsList rest
    else
      String.mk (c :: rest.takeWhile (fun x => !x.isWhitespace)) ::
        splitWsList (rest.dropWhile (fun x => !x.isWhitespace))
termination_by l => l.length
decreasing_by
  · simp
  · have h := (List.dropWhile_sublist
      (l := rest) (fun x => !x.isWhitespace)).length_le
    simp
    omega

/-- Python's `s.split()` on a string. -/
def splitWs (s : String) : List String := splitWsList s.toList

/-! ## Data model of the runner (add_entities_clay.py) -/

/-- An input document record.  A missing field is the empty string, matching
the `story.get(field, '')` accesses in the source. -/
structure Story where
  title : String
  content : String
  date : String
  author : String
deriving DecidableEq

/-- Outcome of `extract_entities` (add_entities_clay.py lines 68-92): either
the three entity arrays, or an error dictionary reduced to its message. -/
inductive ExtractOutcome where
  | ok (people places organizations : List String)
  | fail (msg : String)
deriving DecidableEq

/-- A Story plus annotation fields; `extractionErr` models the optional
`entity_extraction_error` key (add_entities_clay.py lines 206-226). -/
structure Enhanced where
  base : Story
  people : List String
  places : List String
  organizations : List String
  extractionErr : Option String
deriving DecidableEq

/-- Build the enhanced story from one extraction outcome
(add_entities_clay.py lines 206-226). -/
def enhanceStory (s : Story) : ExtractOutcome → Enhanced
  | .ok p pl o => ⟨s, p, pl, o, none⟩
  | .fail m => ⟨s, [], [], [], some m⟩

/-- One iteration of the processing loop (add_entities_clay.py lines 187-235):
skip indices below the resume point `k`, skip stories with empty content
without appending, otherwise extract, append the enhanced story, and count an
error when extraction failed.  The accumulator is the persisted output list
paired with the length of the `errors` list. -/
def processStep (extract : Nat → Story → ExtractOutcome) (k : Nat)
    (acc : List Enhanced × Nat) (p : Nat × Story) : List Enhanced × Nat :=
  if p.1 < k then acc
  else if p.2.content = "" then acc
  else
    let out := extract p.1 p.2
    (acc.1 ++ [enhanceStory p.2 out],
     acc.2 + (match out with | .ok .. => 0 | .fail _ => 1))

/-- The resumable processing loop (add_entities_clay.py lines 183-235): fold
over the enumerated work list starting from the persisted output, with the
resume point `starting_count = len(enhanced_stories)`. -/
def processStories (extract : Nat → Story → ExtractOutcome)
    (stories : List Story) (persisted : List Enhanced) : List Enhanced × Nat :=
  stories.enum.foldl (processStep extract persisted.length) (persisted, 0)

/-- The numeric figures the final summary block emits, in print order
(add_entities_clay.py lines 237-262): the loaded, filtered and sampled
counts always; the resume point and the newly-processed count only on a
resumed run (`if starting_count > 0`, lines 244-246); the total processed
count; the error count only when errors occurred (`if errors:`, with the
overflow figure of the `... and N more errors` line when more than 10); and
the final successful-of-total pair.  There is no skipped-for-no-content
figure anywhere in the block. -/
def summaryFigures (allCount filteredCount sampleSize : Nat)
    (persisted : List Enhanced) (result : List Enhanced × Nat) : List Nat :=
  let starting := persisted.length
  let total := result.1.length
  let errs := result.2
  let successful := (result.1.filter (fun e => e.extractionErr.isNone)).length
  [allCount, filteredCount, sampleSize] ++
  (if 0 < starting then [starting, total - starting] else []) ++
  [total] ++
  (if 0 < errs then [errs] ++ (if 10 < errs then [errs - 10] else []) else []) ++
  [successful, total]

/-! ## Work-list selection: filtering and seeded sampling
(add_entities_clay.py lines 118-160) -/

/-- The exclusion filter of add_entities_clay.py lines 122-142: a story is
skipped when its uppercased title contains one of the calendar/history
patterns or its content carries one of the section markers. -/
def storyFilteredOut (s : Story) : Bool :=
  strContains (strUpper s.title) "TODAY IN HISTORY" ||
  strContains (strUpper s.title) "RELIGION CALENDAR" ||
  strContains (strUpper s.title) "MID-SHORE CALENDAR" ||
  strContains s.content "Section: Calendar" ||
  strContains s.content "Section: Columns" ||
  strContains s.content "Section: Letters"

/-- The eligible work list after filtering (add_entities_clay.py lines 118-142). -/
def filterStories (all : List Story) : List Story :=
  all.filter (fun s => !storyFilteredOut s)

/-- The `random` module as explicit state passing: `seedInit` models
`random.seed(n)` producing a generator state, `sampleFn` models
`random.sample` consuming and returning the state. -/
structure RandomModule (σ : Type) (α : Type) where
  seedInit : Nat → σ
  sampleFn : σ → List α → Nat → List α × σ

/-- Work-list construction (add_entities_clay.py lines 118-160): filter, then
`sample_size = min(args.sample_size, len(stories))`; when sampling applies,
`random.seed(42)` replaces the ambient generator state before
`random.sample`; finally the optional debug `--limit` truncation (a limit of
0 is falsy in Python and ignored). -/
def selectWorkList {σ : Type} (R : RandomModule σ Story) (ambient : σ)
    (sampleSize : Nat) (limit : Option Nat) (allStories : List Story) :
    List Story × σ :=
  let stories := filterStories allStories
  let n := min sampleSize stories.length
  let sampled := if n < stories.length
    then R.sampleFn (R.seedInit 42) stories n
    else (stories, ambient)
  let final := match limit with
    | some lim => if 0 < lim ∧ lim < sampled.1.length
        then sampled.1.take lim else sampled.1
    | none => sampled.1
  (final, sampled.2)

/-! ## Hierarchical reduction (beatbook_generator.py lines 172-195) -/

/-- Contiguous groups of `k` elements (`current_level[i:i+k]` for
`i in range(0, len, k)`); the last group may be shorter.  The source's
`range` step is the batch size, which is at least 1 at every call site. -/
def chunk (k : Nat) : List α → List (List α)
  | [] => []
  | x :: xs => (x :: xs.take (k - 1)) :: chunk k (xs.drop (k - 1))
termination_by l => l.length
decreasing_by
  have := List.length_drop (k - 1) xs
  simp; omega

/-- The hierarchical consolidation loop of `generate_beatbook`
(beatbook_generator.py lines 172-195), fuel-indexed so that the embedding is
total: while the current level holds more than `fanIn` summaries, partition
it into contiguous groups of `fanIn`, synthesize one summary per group
(`synthesize_intermediate(group, level, model)`), and move to the next
level.  `none` means the fuel ran out before the loop exited. -/
def reduceLoop (synth : List String → Nat → String) (fanIn : Nat) :
    Nat → Nat → List String → Option (List String)
  | fuel, level, cur =>
    if cur.length ≤ fanIn then some cur
    else
      match fuel with
      | 0 => none
      | f + 1 =>
          reduceLoop synth fanIn f (level + 1)
            ((chunk fanIn cur).map (fun g => synth g level))

/-! ## Temporal aggregation (create_beatbook.py lines 12-86) -/

/-- A parsed calendar date: (year, month, day). -/
structure PDate where
  year : Nat
  month : Nat
  day : Nat
deriving DecidableEq

/-- Gregorian leap-year test, as `datetime` validates dates. -/
def isLeapYear (y : Nat) : Bool :=
  (y % 4 == 0 && y % 100 != 0) || y % 400 == 0

/-- Days in a month, used to validate day components as `strptime` does. -/
def daysInMonth (y m : Nat) : Nat :=
  if m == 2 then (if isLeapYear y then 29 else 28)
  else if m == 4 || m == 6 || m == 9 || m == 11 then 30
  else 31

/-- Parse one numeric date component: non-empty, all digits, at most `cap`
digits (`strptime` accepts un-padded components but at most the field width). -/
def dateComponent (cap : Nat) (cs : List Char) : Option Nat :=
  if cs.length ≥ 1 && cs.length ≤ cap && cs.all Char.isDigit
  then some (charsToNat cs) else none

/-- Validate a (year, month, day) triple the way `datetime` does. -/
def validDate (y m d : Nat) : Option PDate :=
  if 1 ≤ y && y ≤ 9999 && 1 ≤ m && m ≤ 12 && 1 ≤ d && d ≤ daysInMonth y m
  then some ⟨y, m, d⟩ else none

/-- `datetime.strptime(s, "%Y<sep>%m<sep>%d").date()` as an option. -/
def tryYmd (sep : Char) (s : String) : Option PDate :=
  match splitOnChar sep s.toList with
  | [ys, ms, ds] => do
      let y ← dateComponent 4 ys
      let m ← dateComponent 2 ms
      let d ← dateComponent 2 ds
      validDate y m d
  | _ => none

/-- `datetime.strptime(s, "%m/%d/%Y").date()` as an option. -/
def tryMdy (s : String) : Option PDate :=
  match splitOnChar '/' s.toList with
  | [ms, ds, ys] => do
      let m ← dateComponent 2 ms
      let d ← dateComponent 2 ds
      let y ← dateComponent 4 ys
      validDate y m d
  | _ => none

/-- `parse_date` (create_beatbook.py lines 12-20): empty/falsy input gives
`None`; otherwise the formats `%Y-%m-%d`, `%Y/%m/%d`, `%m/%d/%Y` are tried in
order. -/
def parseDate (s : String) : Option PDate :=
  if s = "" then none
  else ((tryYmd '-' s).orElse (fun _ => (tryYmd '/' s).orElse (fun _ => tryMdy s)))

/-- The (year, month) bucket key of a story, when its date parses
(create_beatbook.py lines 52-57). -/
def monthKeyOf (s : Story) : Option (Nat × Nat) :=
  (parseDate s.date).map (fun d => (d.year, d.month))

/-- The year bucket key of a story, when its date parses
(create_beatbook.py lines 52-58). -/
def yearKeyOf (s : Story) : Option Nat :=
  (parseDate s.date).map (fun d => d.year)

/-- Append a story to the bucket of key `k`, creating the bucket at the end
when absent (the `defaultdict(list)` append of create_beatbook.py). -/
def bucketAdd {κ : Type} [DecidableEq κ] :
    List (κ × List Story) → κ → Story → List (κ × List Story)
  | [], k, s => [(k, [s])]
  | (k0, ss) :: rest, k, s =>
    if k0 = k then (k0, ss ++ [s]) :: rest
    else (k0, ss) :: bucketAdd rest k s

/-- The bucket fold of `build_chronology` (create_beatbook.py lines 48-58):
stories whose key is absent (date missing or unparseable) are passed over and
land in no bucket. -/
def buildBuckets {κ : Type} [DecidableEq κ] (keyOf : Story → Option κ)
    (stories : List Story) : List (κ × List Story) :=
  stories.foldl (fun m s =>
    match keyOf s with
    | none => m
    | some k => bucketAdd m k s) []

/-- Contents of one bucket (empty when the key was never created). -/
def bucketLookup {κ : Type} [DecidableEq κ]
    (m : List (κ × List Story)) (k : κ) : List Story :=
  match m.find? (fun kv => decide (kv.1 = k)) with
  | some kv => kv.2
  | none => []

/-! ## Consolidation (entity_extractor.py lines 92-160) -/

/-- One typed entry of a structured batch record: for individuals
(name, title, story_titles), for events (event, type, story_titles), for
places (location, type, story_titles).  Missing dictionary keys are the
defaults `''` and `[]` used by the `.get` accesses. -/
structure EEntry where
  name : String
  qual : String
  stories : List String
deriving DecidableEq

/-- One structured batch record with its three entity classes. -/
structure BatchRec where
  individuals : List EEntry
  events : List EEntry
  places : List EEntry
deriving DecidableEq

/-- The per-identity consolidation state: key, set of observed qualifiers,
set of source story titles (the two Python `set`s). -/
abbrev ConsMap := List (String × Finset String × Finset String)

/-- Merge one entry under key `key` into the map: add the qualifier to the
title/type set and union in the story titles; a fresh key is appended
(Python dicts preserve insertion order). -/
def consUpdate : ConsMap → String → EEntry → ConsMap
  | [], key, e => [(key, insert e.qual ∅, e.stories.toFinset)]
  | (k, qs, ss) :: rest, key, e =>
    if k = key then (k, insert e.qual qs, ss ∪ e.stories.toFinset) :: rest
    else (k, qs, ss) :: consUpdate rest key e

/-- Process one entry (entity_extractor.py lines 102-120): the identity key
is the whitespace-trimmed name, and entries whose trimmed name is empty are
ignored (`if name:`). -/
def consStep (m : ConsMap) (e : EEntry) : ConsMap :=
  let key := strTrim e.name
  if key = "" then m else consUpdate m key e

/-- Consolidate one entity class across all batches
(entity_extractor.py lines 99-120): iterate the batches in order, and within
each batch the entries in order. -/
def consolidateClass (batches : List (List EEntry)) : ConsMap :=
  batches.foldl (fun m batch => batch.foldl consStep m) []

/-- The story set recorded for a key (empty if the key was never observed). -/
def storiesOf (m : ConsMap) (key : String) : Finset String :=
  match m.find? (fun kv => decide (kv.1 = key)) with
  | some kv => kv.2.2
  | none => ∅

/-- `story_count` of an identity key after consolidating a class: the size of
its story set (entity_extractor.py lines 122-154). -/
def storyCount (batches : List (List EEntry)) (key : String) : Nat :=
  (storiesOf (consolidateClass batches) key).card

/-- Whether an entry contributes to identity `key`: its trimmed name is `key`
and is non-empty. -/
def keyMatches (key : String) (e : EEntry) : Bool :=
  strTrim e.name == key && !(strTrim e.name == "")

/-- The set of distinct source stories supporting identity `key` in a flat
entry sequence. -/
def supportFinset (entries : List EEntry) (key : String) : Finset String :=
  ((entries.filter (keyMatches key)).flatMap (fun e => e.stories)).toFinset

/-- The three per-class story counts produced by `consolidate_entities`. -/
def indStoryCount (bs : List BatchRec) (key : String) : Nat :=
  storyCount (bs.map BatchRec.individuals) key

/-- Story count for the events class. -/
def evStoryCount (bs : List BatchRec) (key : String) : Nat :=
  storyCount (bs.map BatchRec.events) key

/-- Story count for the places class. -/
def plStoryCount (bs : List BatchRec) (key : String) : Nat :=
  storyCount (bs.map BatchRec.places) key

/-! ## Prominence report (entity_extractor.py lines 162-270) -/

/-- The consolidated record as the report reads it: a name and its
`story_count`. -/
structure ERec where
  name : String
  story_count : Nat
deriving DecidableEq

/-- Floor of the binary logarithm, fuel-indexed so it reduces in the
kernel (`fuel = n` always suffices). -/
def log2Fuel : Nat → Nat → Nat
  | 0, _ => 0
  | f + 1, n => if n ≤ 1 then 0 else log2Fuel f (n / 2) + 1

/-- Floor of the binary logarithm of a positive natural. -/
def natLog2 (n : Nat) : Nat := log2Fuel n n

/-- Whether `2 ^ k ≤ a / b` for positive naturals `a`, `b`, by integer
comparison. -/
def pow2LeRat (k : Int) (a b : Nat) : Bool :=
  if 0 ≤ k then b * 2 ^ k.toNat ≤ a else b ≤ a * 2 ^ (-k).toNat

/-- The binade of `a / b` (for `a, b ≥ 1`): the integer `k` with
`2 ^ k ≤ a / b < 2 ^ (k + 1)`. -/
def binade (a b : Nat) : Int :=
  let k0 : Int := (natLog2 a : Int) - (natLog2 b : Int)
  if pow2LeRat k0 a b then k0 else k0 - 1

/-- Round the rational `a / b` (with `b ≥ 1`) to the nearest IEEE-754
binary64 value, ties to even, returned as a mantissa-exponent pair
`(m, e)` denoting `m * 2 ^ e` with `m` in `[2^52, 2^53]` (or `(0, 0)` for
zero).  The finite normal range is modelled; overflow to infinity and
subnormals, unreachable for story counts and percentages, are not. -/
def roundDyadic (a b : Nat) : Nat × Int :=
  if a = 0 then (0, 0)
  else
    let e : Int := binade a b - 52
    let num := a * 2 ^ (-e).toNat
    let den := b * 2 ^ e.toNat
    let q := num / den
    let r := num % den
    let m :=
      if 2 * r < den then q
      else if den < 2 * r then q + 1
      else if q % 2 = 0 then q else q + 1
    (m, e)

/-- Correctly rounded binary64 product of two doubles. -/
def mulDouble (x y : Nat × Int) : Nat × Int :=
  if x.1 = 0 || y.1 = 0 then (0, 0)
  else
    let r := roundDyadic (x.1 * y.1) 1
    (r.1, r.2 + x.2 + y.2)

/-- Python's `int(x)` truncation of a non-negative double. -/
def truncDouble (x : Nat × Int) : Nat :=
  if 0 ≤ x.2 then x.1 * 2 ^ x.2.toNat else x.1 / 2 ^ (-x.2).toNat

/-- The prominence threshold (entity_extractor.py line 165):
`max(2, int(total_stories * (threshold_percent / 100)))` — the percentage is
divided by 100 in binary64 floating point (`pct / 100` rounds to the nearest
double), the story count is converted to a double and multiplied (again
correctly rounded), and `int(...)` truncates the non-negative product. -/
def prominenceThreshold (total pct : Nat) : Nat :=
  max 2 (truncDouble (mulDouble (roundDyadic total 1) (roundDyadic pct 100)))

/-- The prominent records (entity_extractor.py lines 182, 209, 242):
`story_count >= prominence_threshold`. -/
def prominentOf (recs : List ERec) (thr : Nat) : List ERec :=
  recs.filter (fun r => decide (thr ≤ r.story_count))

/-- The remaining records (entity_extractor.py lines 193, 220, 253):
`story_count < prominence_threshold`. -/
def otherOf (recs : List ERec) (thr : Nat) : List ERec :=
  recs.filter (fun r => decide (r.story_count < thr))

/-! ## Topic classification (classify_topics.py) -/

/-- The fixed canonical topic list (classify_topics.py lines 38-54). -/
def TOPICS : List String :=
  ["Education", "Health", "Police & Crime", "Local government", "Judiciary",
   "Public Safety", "Election", "Chesapeake", "Food",
   "Community Events & Culture", "Movies & Shows", "Sports", "Religion",
   "Obituaries", "Other"]

/-- `choose_topic_from_response` (classify_topics.py lines 105-125):
strip whitespace and surrounding quotes, then try exact (case-insensitive)
match, then substring match, then token-level match, falling back to
"Other". -/
def chooseTopicFromResponse (resp : String) : String :=
  let s := stripChars ['"', '\''] (strTrim resp)
  let sl := strLower s
  match TOPICS.find? (fun t => sl == strLower t) with
  | some t => t
  | none =>
    match TOPICS.find? (fun t => strContains sl (strLower t)) with
    | some t => t
    | none =>
      let tokens := (splitWs s).map
        (fun tok => strLower (stripChars ['.', ',', '"', '\''] tok))
      match TOPICS.find?
          (fun t => (splitWs (strLower t)).any (fun w => tokens.contains w)) with
      | some t => t
      | none => "Other"

/-- Outcome of `call_llm` at one story: a response string, or failure (the
`RuntimeError` when every CLI candidate fails). -/
inductive OracleResult where
  | ok (resp : String)
  | failure
deriving DecidableEq

/-- The topic assigned to one story record (classify_topics.py lines
172-183): `"Other"` in dry-run mode and on any exception, otherwise the
mapped oracle response. -/
def assignTopic (dryRun : Bool) (r : OracleResult) : String :=
  if dryRun then "Other"
  else
    match r with
    | .ok resp => chooseTopicFromResponse resp
    | .failure => "Other"

/-! ## Response parsing (entity_extractor.py lines 61-90)

`json.loads` is modelled by a small executable JSON parser `miniLoads`
covering objects, arrays, strings (without escape sequences), integers and
literals; like `json.loads` it rejects trailing non-whitespace.  The parse
strategies themselves are parametric in the underlying loader. -/

/-- A JSON value for the subset handled by the mini loader. -/
inductive MJson where
  | jnull
  | jbool (b : Bool)
  | jnum (n : Int)
  | jstr (s : String)
  | jarr (items : List MJson)
  | jobj (fields : List (String × MJson))

/-- Skip JSON whitespace. -/
def skipWsL (l : List Char) : List Char :=
  l.dropWhile (fun c => c == ' ' || c == '\t' || c == '\n' || c == '\r')

/-- Parse a string body after the opening quote; escape sequences are outside
the modelled subset and rejected. -/
def parseStrBody : List Char → List Char → Option (String × List Char)
  | _, [] => none
  | acc, c :: rest =>
    if c = '"' then some (String.mk acc.reverse, rest)
    else if c = '\\' then none
    else parseStrBody (c :: acc) rest

/-- Parse a run of digits into a natural number. -/
def parseDigits (acc : Nat) : List Char → Bool → Option (Nat × List Char)
  | [], seen => if seen then some (acc, []) else none
  | c :: rest, seen =>
    if c.isDigit then parseDigits (acc * 10 + (c.toNat - 48)) rest true
    else if seen then some (acc, c :: rest) else none

mutual

/-- Parse one JSON value. -/
def parseVal : Nat → List Char → Option (MJson × List Char)
  | 0, _ => none
  | fuel + 1, l =>
    match l with
    | [] => none
    | c :: rest =>
      if c = '"' then
        (parseStrBody [] rest).map (fun p => (MJson.jstr p.1, p.2))
      else if c = '\x7b' then
        match skipWsL rest with
        | '\x7d' :: r2 => some (MJson.jobj [], r2)
        | r1 =>
          (parseObjItems fuel r1).map (fun p => (MJson.jobj p.1, p.2))
      else if c = '[' then
        match skipWsL rest with
        | ']' :: r2 => some (MJson.jarr [], r2)
        | r1 =>
          (parseArrItems fuel r1).map (fun p => (MJson.jarr p.1, p.2))
      else if c = '-' then
        (parseDigits 0 rest false).map (fun p => (MJson.jnum (-(p.1 : Int)), p.2))
      else if c.isDigit then
        (parseDigits 0 (c :: rest) false).map (fun p => (MJson.jnum (p.1 : Int), p.2))
      else if "null".toList.isPrefixOf (c :: rest) then
        some (MJson.jnull, (c :: rest).drop 4)
      else if "true".toList.isPrefixOf (c :: rest) then
        some (MJson.jbool true, (c :: rest).drop 4)
      else if "false".toList.isPrefixOf (c :: rest) then
        some (MJson.jbool false, (c :: rest).drop 5)
      else none

/-- Parse the members of a non-empty object, positioned at the first key. -/
def parseObjItems : Nat → List Char → Option (List (String × MJson) × List Char)
  | 0, _ => none
  | fuel + 1, l =>
    match l with
    | '"' :: rest => do
      let (key, r1) ← parseStrBody [] rest
      match skipWsL r1 with
      | ':' :: r2 => do
        let (v, r3) ← parseVal fuel (skipWsL r2)
        match skipWsL r3 with
        | ',' :: r4 => do
          let (fields, r5) ← parseObjItems fuel (skipWsL r4)
          pure ((key, v) :: fields, r5)
        | '\x7d' :: r4 => pure ([(key, v)], r4)
        | _ => none
      | _ => none
    | _ => none

/-- Parse the items of a non-empty array, positioned at the first item. -/
def parseArrItems : Nat → List Char → Option (List MJson × List Char)
  | 0, _ => none
  | fuel + 1, l => do
    let (v, r1) ← parseVal fuel l
    match skipWsL r1 with
    | ',' :: r2 => do
      let (items, r3) ← parseArrItems fuel (skipWsL r2)
      pure (v :: items, r3)
    | ']' :: r2 => pure ([v], r2)
    | _ => none

end

/-- The `json.loads` model: parse one value surrounded by optional
whitespace, rejecting trailing data. -/
def miniLoads (s : String) : Option MJson :=
  match parseVal (2 * s.length + 8) (skipWsL s.toList) with
  | some (v, rest) => if skipWsL rest = [] then some v else none
  | none => none

/-- The default structured record returned when every parse attempt fails
(entity_extractor.py line 90). -/
def defaultBatchJson : MJson :=
  MJson.jobj [("individuals", MJson.jarr []), ("events", MJson.jarr []),
    ("places", MJson.jarr [])]

/-- The candidate substring of the third strategy
(entity_extractor.py line 80): `re.search(r'\x7b.*\x7d', text, re.DOTALL)`
with a greedy `.*` matches from the first opening brace to the last closing
brace, when the latter comes after the former. -/
def braceCandidate (text : String) : Option String :=
  let l := text.toList
  match l.findIdx? (fun c => c == '\x7b'), l.reverse.findIdx? (fun c => c == '\x7d') with
  | some i, some jr =>
    let j := l.length - 1 - jr
    if i < j then some (String.mk ((l.drop i).take (j - i + 1))) else none
  | _, _ => none

/-- The lazy capture of the fenced-block regex: the shortest `.*?` body such
that the current character closes the captured group with `\x7d` and is
followed by optional whitespace and a closing fence. -/
def fenceLazyCapture (acc : List Char) : List Char → Option (List Char)
  | [] => none
  | c :: rest =>
    if c = '\x7d' &&
        "```".toList.isPrefixOf (rest.dropWhile Char.isWhitespace) then
      some ((c :: acc).reverse)
    else fenceLazyCapture (c :: acc) rest

/-- Attempt the fenced-block pattern anchored at the current position:
an opening fence, an optional `json` tag (tried greedily first, as
`(?:json)?` does), optional whitespace, then the lazily captured braced
body. -/
def fenceTryAt (l : List Char) : Option (List Char) :=
  if "```".toList.isPrefixOf l then
    let rest := l.drop 3
    let tryBody : List Char → Option (List Char) := fun r =>
      match r.dropWhile Char.isWhitespace with
      | '\x7b' :: body => (fenceLazyCapture ['\x7b'] body)
      | _ => none
    if "json".toList.isPrefixOf rest then
      (tryBody (rest.drop 4)).orElse (fun _ => tryBody rest)
    else tryBody rest
  else none

/-- Leftmost successful position of the fenced-block pattern, as
`re.search` finds it. -/
def fenceSearch : List Char → Option (List Char)
  | [] => none
  | c :: rest => (fenceTryAt (c :: rest)).orElse (fun _ => fenceSearch rest)

/-- The candidate substring of the second strategy
(entity_extractor.py line 72): the capture of
`re.search(r'<fence>(?:json)?\s*(\x7b.*?\x7d)\s*<fence>', text, re.DOTALL)`. -/
def fencedCandidate (text : String) : Option String :=
  (fenceSearch text.toList).map String.mk

/-- `extract_entities_from_batch`'s parse cascade
(entity_extractor.py lines 64-90), parametric in the JSON loader: try the
full response text, then the fenced-block capture, then the first-brace to
last-brace span; if everything fails return the default record. -/
def extractParse (jloads : String → Option MJson) (text : String) : MJson :=
  match jloads text with
  | some v => v
  | none =>
    match (fencedCandidate text).bind jloads with
    | some v => v
    | none =>
      match (braceCandidate text).bind jloads with
      | some v => v
      | none => defaultBatchJson

/-- Modelled from the spec (§4.2 ResponseParser), for comparison with
`extractParse`: strategy (2) applies only when the trimmed text begins with a
fence, whose first and last lines are stripped; strategy (3) takes the first
balanced braced substring, by depth counting from the first opening brace. -/
def balancedFrom (depth : Nat) (acc : List Char) : List Char → Option (List Char)
  | [] => none
  | c :: rest =>
    if c = '\x7b' then balancedFrom (depth + 1) (c :: acc) rest
    else if c = '\x7d' then
      match depth with
      | 0 => none
      | 1 => some ((c :: acc).reverse)
      | d + 2 => balancedFrom (d + 1) (c :: acc) rest
    else balancedFrom depth (c :: acc) rest

/-- Modelled from the spec: the first balanced object-like substring. -/
def firstBalanced (text : String) : Option String :=
  match text.toList.findIdx? (fun c => c == '\x7b') with
  | some i => (balancedFrom 0 [] (text.toList.drop i)).map String.mk
  | none => none

/-- Join lines back with newline separators. -/
def joinWithNl : List (List Char) → List Char
  | [] => []
  | [w] => w
  | w :: ws => w ++ '\n' :: joinWithNl ws

/-- Modelled from the spec: if the trimmed text begins with a code fence,
strip the first line and a trailing fence line to obtain the interior. -/
def specFenceInterior (text : String) : Option String :=
  let t := (strTrim text).toList
  if "```".toList.isPrefixOf t then
    let ls := splitOnChar '\n' t
    let body := ls.drop 1
    let body2 := if body.getLast? = some ("```".toList) then body.dropLast else body
    some (String.mk (joinWithNl body2))
  else none

/-- Modelled from the spec (§4.2): the three-strategy parse as the spec
sentence describes it — full trimmed text, fence-stripped interior when the
text begins with a fence, then the first balanced object-like substring,
with the same default record on total failure. -/
def claimParse (jloads : String → Option MJson) (text : String) : MJson :=
  match jloads (strTrim text) with
  | some v => v
  | none =>
    match (specFenceInterior text).bind jloads with
    | some v => v
    | none =>
      match (firstBalanced text).bind jloads with
      | some v => v
      | none => defaultBatchJson

/-! ## Concrete inputs used by counterexamples and witnesses -/

/-- Concrete story with content, for the resumption scenario. -/
def c1A : Story := ⟨"t0", "body0", "", ""⟩

/-- Concrete story without content (the skipped-not-appended case). -/
def c1B : Story := ⟨"t1", "", "", ""⟩

/-- Concrete story with content following the empty one. -/
def c1C : Story := ⟨"t2", "body2", "", ""⟩

/-- A stable three-story work list containing one empty-content story. -/
def c1Stories : List Story := [c1A, c1B, c1C]

/-- A deterministic extraction oracle used in concrete runs. -/
def c1Extract : Nat → Story → ExtractOutcome := fun _ s => .ok [s.title] [] []

/-- The enhanced record `c1Extract` produces for a story. -/
def c1E (s : Story) : Enhanced := enhanceStory s (.ok [s.title] [] [])

/-- An all-content work list for the resumption witness. -/
def w1Stories : List Story := [c1A, c1C, ⟨"t3", "body3", "", ""⟩]

/-- Concrete dated story for the chronology scenario. -/
def c4Dated : Story := ⟨"Fire on Main St", "c", "2020-01-02", "A"⟩

/-- Concrete story with a missing date field. -/
def c4Undated : Story := ⟨"Untitled brief", "c", "", "B"⟩

/-- A two-story corpus, one dated and one undated. -/
def c4Stories : List Story := [c4Dated, c4Undated]

/-- A five-story corpus with exactly one empty-content story. -/
def c5Stories : List Story :=
  [⟨"s1", "c1", "", ""⟩, ⟨"s2", "", "", ""⟩, ⟨"s3", "c3", "", ""⟩,
   ⟨"s4", "c4", "", ""⟩, ⟨"s5", "c5", "", ""⟩]

/-- An always-successful extraction oracle for the five-story scenario. -/
def c5Extract : Nat → Story → ExtractOutcome := fun _ _ => .ok [] [] []

/-- Batch entry: "Ann" with surrounding whitespace, seen in stories S1, S2. -/
def w6e1 : EEntry := ⟨" Ann ", "Chief", ["S1", "S2"]⟩

/-- Batch entry: "Ann" again, different qualifier, stories S2, S3. -/
def w6e2 : EEntry := ⟨"Ann", "Officer", ["S2", "S3"]⟩

/-- Batch entry for the events and places classes. -/
def w6e3 : EEntry := ⟨"Bob", "", ["S1"]⟩

/-- A batch sequence for the consolidation witness. -/
def w6bs1 : List BatchRec := [⟨[w6e1], [w6e3], []⟩, ⟨[w6e2], [], [w6e3]⟩]

/-- The same batch content permuted and regrouped. -/
def w6bs2 : List BatchRec := [⟨[w6e2, w6e1], [], [w6e3]⟩, ⟨[], [w6e3], []⟩]

/-- An oracle response embedding a JSON object in prose, with a stray
trailing closing brace after the object. -/
def demo8 : String :=
  "Result: \x7b\"individuals\": [\x7b\"name\": \"Ann Smith\", \"title\": \"Chief\", \"story_titles\": [\"S1\"]\x7d], \"events\": [], \"places\": []\x7d end \x7d"

/-- The structured record contained in `demo8`. -/
def demo8Parsed : MJson :=
  MJson.jobj
    [("individuals", MJson.jarr
        [MJson.jobj [("name", MJson.jstr "Ann Smith"),
                     ("title", MJson.jstr "Chief"),
                     ("story_titles", MJson.jarr [MJson.jstr "S1"])]]),
     ("events", MJson.jarr []),
     ("places", MJson.jarr [])]

/-- Length of the `individuals` array of a structured record, used to
distinguish records. -/
def indLenJ : MJson → Option Nat
  | .jobj (("individuals", .jarr xs) :: _) => some xs.length
  | _ => none

/-! ## Helper lemmas -/

/-- Unfolding `chunk` on a cons cell. -/
theorem chunk_cons (k : Nat) (x : α) (xs : List α) :
    chunk k (x :: xs) = (x :: xs.take (k - 1)) :: chunk k (xs.drop (k - 1)) := by
  rw [chunk]

/-- Chunking never lengthens a list. -/
theorem chunk_length_le (k : Nat) :
    ∀ (n : Nat) (l : List α), l.length ≤ n → (chunk k l).length ≤ l.length := by
  intro n
  induction n with
  | zero =>
    intro l hl
    have : l = [] := List.length_eq_zero.mp (Nat.le_zero.mp hl)
    subst this
    simp [chunk]
  | succ m ih =>
    intro l hl
    cases l with
    | nil => simp [chunk]
    | cons x xs =>
      rw [chunk_cons]
      have h1 : (xs.drop (k - 1)).length ≤ m := by
        simp only [List.length_drop]
        simp only [List.length_cons] at hl
        omega
      have h2 := ih (xs.drop (k - 1)) h1
      simp only [List.length_cons, List.length_drop] at h2 ⊢
      omega

/-- With fan-in at least 2, chunking a list longer than the fan-in makes it
strictly shorter. -/
theorem chunk_length_lt (k : Nat) (l : List α) (h2 : 2 ≤ k)
    (hl : k < l.length) : (chunk k l).length < l.length := by
  cases l with
  | nil => simp at hl
  | cons x xs =>
    rw [chunk_cons]
    have h3 := chunk_length_le k (xs.drop (k - 1)).length (xs.drop (k - 1)) le_rfl
    simp only [List.length_cons, List.length_drop] at h3 hl ⊢
    omega

/-- With fuel covering the current length, the reduction loop for a fan-in of
at least 2 returns a level of size at most the fan-in. -/
theorem reduceLoop_total :
    ∀ (fuel : Nat) (synth : List String → Nat → String) (fanIn level : Nat)
      (l : List String), 2 ≤ fanIn → l.length ≤ fuel →
      ∃ r, reduceLoop synth fanIn fuel level l = some r ∧ r.length ≤ fanIn := by
  intro fuel
  induction fuel with
  | zero =>
    intro synth fanIn level l h2 hl
    have h0 : l.length = 0 := Nat.le_zero.mp hl
    refine ⟨l, ?_, by omega⟩
    rw [reduceLoop]
    simp [h0]
  | succ f ih =>
    intro synth fanIn level l h2 hl
    by_cases hle : l.length ≤ fanIn
    · refine ⟨l, ?_, hle⟩
      rw [reduceLoop]
      simp [hle]
    · have hlt : fanIn < l.length := Nat.not_le.mp hle
      have hcl := chunk_length_lt fanIn l h2 hlt
      have hnext : ((chunk fanIn l).map (fun g => synth g level)).length ≤ f := by
        simp only [List.length_map]
        omega
      obtain ⟨r, hr, hrl⟩ := ih synth fanIn (level + 1)
        ((chunk fanIn l).map (fun g => synth g level)) h2 hnext
      refine ⟨r, ?_, hrl⟩
      rw [reduceLoop]
      simp [hle]
      exact hr

/-- Chunking with group size 1 preserves length. -/
theorem chunk_one_length : ∀ (l : List α), (chunk 1 l).length = l.length := by
  intro l
  induction l with
  | nil => simp [chunk]
  | cons x xs ih =>
    rw [chunk_cons]
    simp only [Nat.sub_self, List.take_zero, List.drop_zero, List.length_cons]
    omega

/-! ## Claims C2 and C3: hierarchical reduction -/

/-- C2: the claim says a fan-in bound of 1 with more summaries than the bound
is rejected as invalid configuration before the reduction loop.  The code has
no such rejection: `generate_beatbook` enters the `while` loop directly, and
with fan-in 1 every pass maps each singleton group to one synthesized
summary, so the level length never shrinks and the loop never exits.  This
theorem evaluates the embedded loop at the failing configuration: for every
fuel bound the loop fails to terminate within it. -/
theorem claim2_fanin_one_never_terminates
    (synth : List String → Nat → String) (l : List String)
    (level fuel : Nat) (h : 1 < l.length) :
    reduceLoop synth 1 fuel level l = none := by
  induction fuel generalizing level l with
  | zero =>
    rw [reduceLoop]
    have hnle : ¬ (l.length ≤ 1) := by omega
    simp [hnle]
  | succ f ih =>
    rw [reduceLoop]
    have hnle : ¬ (l.length ≤ 1) := by omega
    simp only [hnle, if_false]
    apply ih
    simp only [List.length_map, chunk_one_length]
    exact h

/-- Witness for C2 at a concrete input: two batch summaries, fan-in 1. -/
theorem claim2_fanin_one_never_terminates_witness :
    1 < (["a", "b"] : List String).length ∧
    reduceLoop (fun g _ => String.join g) 1 5 1 ["a", "b"] = none :=
  ⟨by decide,
   claim2_fanin_one_never_terminates (fun g _ => String.join g) ["a", "b"] 1 5
     (by decide)⟩

/-- C3: for a non-empty summary sequence and fan-in at least 2, the
hierarchical reduction loop terminates (fuel equal to the leaf count always
suffices) and the level it finally returns for combination has length at
most the fan-in. -/
theorem claim3_reduction_terminates_bounded
    (synth : List String → Nat → String) (fanIn : Nat) (l : List String)
    (h2 : 2 ≤ fanIn) (_h1 : 1 ≤ l.length) :
    ∃ r, reduceLoop synth fanIn l.length 1 l = some r ∧ r.length ≤ fanIn := by
  exact reduceLoop_total l.length synth fanIn 1 l h2 le_rfl

/-- Witness for C3: five summaries with fan-in 2. -/
theorem claim3_reduction_terminates_bounded_witness :
    2 ≤ 2 ∧ 1 ≤ (["a", "b", "c", "d", "e"] : List String).length ∧
    ∃ r, reduceLoop (fun g _ => String.join g) 2
        (["a", "b", "c", "d", "e"] : List String).length 1
        ["a", "b", "c", "d", "e"] = some r ∧ r.length ≤ 2 :=
  ⟨by decide, by decide,
   claim3_reduction_terminates_bounded (fun g _ => String.join g) 2
     ["a", "b", "c", "d", "e"] (by decide) (by decide)⟩

/-! ## Claim C7: prominence threshold and classification -/

set_option maxRecDepth 40000 in
/-- C7 counterexample: the claim's threshold formula
`max(2, floor(totalCount * thresholdPercent / 100))` is not what the program
computes.  At `total = 100`, `pct = 29` the code's float computation
`int(100 * (29 / 100))` yields 28 (the nearest double to `29/100` lies just
below it, and the rounded product lies just below 29), while the claimed
exact floor is 29. -/
theorem claim7_counterexample :
    prominenceThreshold 100 29 = 28 ∧
    max 2 (100 * 29 / 100) = 29 ∧
    prominenceThreshold 100 29 ≠ max 2 (100 * 29 / 100) :=
  ⟨by decide, by decide, by decide⟩

/-- C7 amended: the threshold is
`max(2, int(totalCount * (thresholdPercent / 100)))` computed in binary64
floating point — which can fall one below the exact floor, as at
`totalCount = 100`, `thresholdPercent = 29` — it is never below 2, and an
entity record is classified as prominent if and only if its `story_count` is
at least that threshold, all remaining records being classified as other. -/
theorem claim7_amended_prominence_rank (total pct : Nat) (recs : List ERec)
    (r : ERec) :
    2 ≤ prominenceThreshold total pct ∧
    (r ∈ prominentOf recs (prominenceThreshold total pct) ↔
      r ∈ recs ∧ prominenceThreshold total pct ≤ r.story_count) ∧
    (r ∈ otherOf recs (prominenceThreshold total pct) ↔
      r ∈ recs ∧ r.story_count < prominenceThreshold total pct) := by
  refine ⟨?_, ?_, ?_⟩
  · unfold prominenceThreshold
    exact Nat.le_max_left _ _
  · simp [prominentOf, List.mem_filter]
  · simp [otherOf, List.mem_filter]


/-! ## Claim C9: deterministic sampling -/

/-- C9: the selected work list does not depend on the ambient random-number
generator state, because `random.seed(42)` replaces it before
`random.sample` is consulted; hence two runs over the same corpus with the
same sample size (and limit) select the same stories in the same order, for
every sampler implementation. -/
theorem claim9_sampling_deterministic {σ : Type} (R : RandomModule σ Story)
    (a1 a2 : σ) (sampleSize : Nat) (limit : Option Nat)
    (allStories : List Story) :
    (selectWorkList R a1 sampleSize limit allStories).1 =
      (selectWorkList R a2 sampleSize limit allStories).1 := by
  unfold selectWorkList
  by_cases h : min sampleSize (filterStories allStories).length <
      (filterStories allStories).length <;> simp [h]

/-! ## Claim C10: canonical topic list -/

/-- C10: `choose_topic_from_response` maps every oracle response to a member
of the fixed 15-entry topic list — each of the exact, substring and
token-level strategies returns a list member, and the fallback is "Other",
itself a member; consequently the topic recorded for a story is in the list
for every oracle behavior, including dry runs and total failure. -/
theorem claim10_topic_in_list (dryRun : Bool) (r : OracleResult)
    (resp : String) :
    chooseTopicFromResponse resp ∈ TOPICS ∧ assignTopic dryRun r ∈ TOPICS := by
  have base : ∀ s : String, chooseTopicFromResponse s ∈ TOPICS := by
    intro s
    unfold chooseTopicFromResponse
    dsimp only
    split
    next t heq => exact List.mem_of_find?_eq_some heq
    next =>
      split
      next t heq => exact List.mem_of_find?_eq_some heq
      next =>
        split
        next t heq => exact List.mem_of_find?_eq_some heq
        next => decide
  refine ⟨base resp, ?_⟩
  unfold assignTopic
  split
  · decide
  · cases r with
    | ok resp2 => exact base resp2
    | failure => decide

/-! ## Claim C4: temporal aggregation drops undated documents -/

/-- Looking a key up after one bucket insertion. -/
theorem bucketLookup_bucketAdd {κ : Type} [DecidableEq κ]
    (m : List (κ × List Story)) (k0 k : κ) (s : Story) :
    bucketLookup (bucketAdd m k0 s) k =
      if k0 = k then bucketLookup m k ++ [s] else bucketLookup m k := by
  induction m with
  | nil =>
    by_cases h : k0 = k <;> simp [bucketAdd, bucketLookup, List.find?, h]
  | cons hd tl ih =>
    obtain ⟨k1, ss⟩ := hd
    by_cases h1 : k1 = k0
    · subst h1
      by_cases h2 : k1 = k <;>
        simp [bucketAdd, bucketLookup, List.find?, h2]
    · by_cases h2 : k1 = k
      · subst h2
        have h3 : k0 ≠ k1 := fun h => h1 h.symm
        simp [bucketAdd, bucketLookup, List.find?, h1, h3]
      · simp only [bucketAdd, if_neg h1]
        have hcons : ∀ (tl2 : List (κ × List Story)),
            bucketLookup ((k1, ss) :: tl2) k = bucketLookup tl2 k := by
          intro tl2
          simp [bucketLookup, List.find?, h2]
        rw [hcons, hcons, ih]

/-- Bucket contents after folding a story list into an accumulator map. -/
theorem bucketLookup_foldl {κ : Type} [DecidableEq κ] (keyOf : Story → Option κ) :
    ∀ (stories : List Story) (m : List (κ × List Story)) (k : κ),
    bucketLookup (stories.foldl (fun m s =>
        match keyOf s with
        | none => m
        | some kk => bucketAdd m kk s) m) k =
      bucketLookup m k ++ stories.filter (fun s => decide (keyOf s = some k)) := by
  intro stories
  induction stories with
  | nil => simp
  | cons s rest ih =>
    intro m k
    simp only [List.foldl_cons, List.filter_cons]
    cases hk : keyOf s with
    | none => simp [hk, ih]
    | some kk =>
      by_cases hkk : kk = k
      · subst hkk
        simp [hk, ih, bucketLookup_bucketAdd]
      · simp [hk, hkk, ih, bucketLookup_bucketAdd]

/-- C4 counterexample: in a two-story corpus with one missing date, the
chronology built by `build_chronology` contains only the dated story; the
undated story appears in no (year, month) bucket and no year bucket, and
there is no "unknown" bucket at all (bucket keys are calendar periods), so
the document is dropped from the aggregation, contradicting the claim. -/
theorem claim4_counterexample :
    buildBuckets monthKeyOf c4Stories = [((2020, 1), [c4Dated])] ∧
    buildBuckets yearKeyOf c4Stories = [(2020, [c4Dated])] ∧
    parseDate c4Undated.date = none ∧
    c4Stories.length = 2 := by
  refine ⟨?_, ?_, rfl, rfl⟩ <;> rfl

/-- C4 amended: the aggregation groups documents by calendar year and by
(year, month) of their parsed date; a document whose date is missing or
unparseable is excluded from every bucket (there is no "unknown" bucket), and
each document with a parseable date appears, in corpus order, exactly in the
bucket of its period. -/
theorem claim4_amended_buckets (stories : List Story) (ym : Nat × Nat)
    (y : Nat) :
    bucketLookup (buildBuckets monthKeyOf stories) ym =
      stories.filter (fun s => decide (monthKeyOf s = some ym)) ∧
    bucketLookup (buildBuckets yearKeyOf stories) y =
      stories.filter (fun s => decide (yearKeyOf s = some y)) := by
  constructor <;>
    · unfold buildBuckets
      rw [bucketLookup_foldl]
      simp [bucketLookup, List.find?]

/-! ## Claim C6: consolidation is order-independent -/

/-- Story set of a key after merging one entry under key `k`. -/
theorem storiesOf_consUpdate (m : ConsMap) (k : String) (e : EEntry)
    (key : String) :
    storiesOf (consUpdate m k e) key =
      if k = key then storiesOf m key ∪ e.stories.toFinset
      else storiesOf m key := by
  induction m with
  | nil =>
    by_cases h : k = key <;>
      simp [consUpdate, storiesOf, List.find?, h]
  | cons hd tl ih =>
    obtain ⟨k1, qs, ss⟩ := hd
    by_cases h1 : k1 = k
    · subst h1
      by_cases h2 : k1 = key <;>
        simp [consUpdate, storiesOf, List.find?, h2]
    · by_cases h2 : k1 = key
      · subst h2
        have h3 : ¬ (k = k1) := fun h => h1 h.symm
        simp [consUpdate, storiesOf, List.find?, h1, h3]
      · simp only [consUpdate, if_neg h1]
        have hcons : ∀ (tl2 : ConsMap) (qs2 : Finset String)
            (ss2 : Finset String),
            storiesOf ((k1, qs2, ss2) :: tl2) key = storiesOf tl2 key := by
          intro tl2 qs2 ss2
          simp [storiesOf, List.find?, h2]
        rw [hcons, hcons, ih]

/-- Unfolding the support set on a cons cell. -/
theorem supportFinset_cons (e : EEntry) (rest : List EEntry) (key : String) :
    supportFinset (e :: rest) key =
      (if keyMatches key e then e.stories.toFinset else ∅) ∪
        supportFinset rest key := by
  by_cases h : keyMatches key e <;>
    simp [supportFinset, List.filter_cons, h, List.toFinset_append]

/-- The story set accumulated by folding entries from the left equals the
initial story set united with the support set of the entries. -/
theorem storiesOf_foldl (es : List EEntry) :
    ∀ (m : ConsMap) (key : String),
    storiesOf (es.foldl consStep m) key =
      storiesOf m key ∪ supportFinset es key := by
  induction es with
  | nil => simp [supportFinset]
  | cons e rest ih =>
    intro m key
    rw [List.foldl_cons, ih, supportFinset_cons]
    by_cases h0 : strTrim e.name = ""
    · have hm : keyMatches key e = false := by
        simp [keyMatches, h0]
      have hstep : consStep m e = m := by simp [consStep, h0]
      simp [hstep, hm]
    · by_cases hk : strTrim e.name = key
      · have hkey : key ≠ "" := fun hkey => h0 (hk.trans hkey)
        have hm : keyMatches key e = true := by simp [keyMatches, hk, hkey]
        have hstep : consStep m e = consUpdate m (strTrim e.name) e := by
          simp [consStep, h0]
        rw [hstep, storiesOf_consUpdate, if_pos hk, hm]
        simp [Finset.union_assoc]
      · have hm : keyMatches key e = false := by simp [keyMatches, hk]
        have hstep : consStep m e = consUpdate m (strTrim e.name) e := by
          simp [consStep, h0]
        rw [hstep, storiesOf_consUpdate, if_neg hk, hm]
        simp

/-- The nested per-batch fold is the fold over the flattened entry list. -/
theorem consolidateClass_eq_flatten (bs : List (List EEntry)) :
    consolidateClass bs = bs.flatten.foldl consStep [] := by
  suffices h : ∀ (bs : List (List EEntry)) (m : ConsMap),
      bs.foldl (fun m batch => batch.foldl consStep m) m =
        bs.flatten.foldl consStep m by
    exact h bs []
  intro bs
  induction bs with
  | nil => simp
  | cons b rest ih => intro m; simp [List.flatten_cons, List.foldl_append, ih]

/-- The story count of a key is the number of distinct source stories
supporting that key across the flattened batches. -/
theorem storyCount_eq_support (bs : List (List EEntry)) (key : String) :
    storyCount bs key = (supportFinset bs.flatten key).card := by
  unfold storyCount
  rw [consolidateClass_eq_flatten, storiesOf_foldl]
  simp [storiesOf, List.find?]

/-- The support set only depends on the multiset of entries. -/
theorem supportFinset_perm {es1 es2 : List EEntry}
    (h : es1.Perm es2) (key : String) :
    supportFinset es1 key = supportFinset es2 key := by
  unfold supportFinset
  apply Finset.ext
  intro a
  simp only [List.mem_toFinset, List.mem_flatMap, List.mem_filter]
  constructor
  · rintro ⟨e, ⟨he, hm⟩, ha⟩
    exact ⟨e, ⟨h.mem_iff.mp he, hm⟩, ha⟩
  · rintro ⟨e, ⟨he, hm⟩, ha⟩
    exact ⟨e, ⟨h.mem_iff.mpr he, hm⟩, ha⟩

/-- C6: consolidation is order-independent in content.  If two batch
sequences carry, class by class, the same entries up to permutation (which
covers both reordering and regrouping of the batch sequence), then every
identity key receives the same `story_count` in each of the three classes;
moreover each such frequency equals the number of distinct source-story
identifiers observed for that trimmed identity key. -/
theorem claim6_consolidation_order_independent (bs1 bs2 : List BatchRec)
    (hind : ((bs1.map BatchRec.individuals).flatten).Perm
      ((bs2.map BatchRec.individuals).flatten))
    (hev : ((bs1.map BatchRec.events).flatten).Perm
      ((bs2.map BatchRec.events).flatten))
    (hpl : ((bs1.map BatchRec.places).flatten).Perm
      ((bs2.map BatchRec.places).flatten))
    (key : String) :
    indStoryCount bs1 key = indStoryCount bs2 key ∧
    evStoryCount bs1 key = evStoryCount bs2 key ∧
    plStoryCount bs1 key = plStoryCount bs2 key ∧
    indStoryCount bs1 key =
      (supportFinset ((bs1.map BatchRec.individuals).flatten) key).card := by
  refine ⟨?_, ?_, ?_, storyCount_eq_support _ _⟩
  · unfold indStoryCount
    rw [storyCount_eq_support, storyCount_eq_support, supportFinset_perm hind]
  · unfold evStoryCount
    rw [storyCount_eq_support, storyCount_eq_support, supportFinset_perm hev]
  · unfold plStoryCount
    rw [storyCount_eq_support, storyCount_eq_support, supportFinset_perm hpl]

/-- Witness for C6: two concrete batch sequences, one a regrouped
permutation of the other, agree on every class count for the key "Ann". -/
theorem claim6_consolidation_order_independent_witness :
    ((w6bs1.map BatchRec.individuals).flatten).Perm
      ((w6bs2.map BatchRec.individuals).flatten) ∧
    ((w6bs1.map BatchRec.events).flatten).Perm
      ((w6bs2.map BatchRec.events).flatten) ∧
    ((w6bs1.map BatchRec.places).flatten).Perm
      ((w6bs2.map BatchRec.places).flatten) ∧
    (indStoryCount w6bs1 "Ann" = indStoryCount w6bs2 "Ann" ∧
     evStoryCount w6bs1 "Ann" = evStoryCount w6bs2 "Ann" ∧
     plStoryCount w6bs1 "Ann" = plStoryCount w6bs2 "Ann" ∧
     indStoryCount w6bs1 "Ann" =
       (supportFinset ((w6bs1.map BatchRec.individuals).flatten) "Ann").card) :=
  ⟨by decide, by decide, by decide,
   claim6_consolidation_order_independent w6bs1 w6bs2 (by decide) (by decide)
     (by decide) "Ann"⟩

/-! ## Claims C1 and C5: the resumable runner -/

/-- Items whose index stays below the resume point are skipped: the fold
leaves the accumulator untouched. -/
theorem process_skip (extract : Nat → Story → ExtractOutcome) (k : Nat) :
    ∀ (l : List Story) (j : Nat) (acc : List Enhanced × Nat),
    j + l.length ≤ k →
    (List.enumFrom j l).foldl (processStep extract k) acc = acc := by
  intro l
  induction l with
  | nil => intro j acc _; simp
  | cons s rest ih =>
    intro j acc hj
    simp only [List.length_cons] at hj
    have hjk : j < k := by omega
    simp only [List.enumFrom_cons, List.foldl_cons]
    have hstep : processStep extract k acc (j, s) = acc := by
      simp [processStep, hjk]
    rw [hstep]
    exact ih (j + 1) acc (by omega)

/-- Items whose index is at least the resume point, all with non-empty
content, are each extracted and appended in order. -/
theorem process_run (extract : Nat → Story → ExtractOutcome) (k : Nat) :
    ∀ (l : List Story) (j : Nat) (acc : List Enhanced × Nat), k ≤ j →
    l.all (fun s => !(s.content == "")) = true →
    ((List.enumFrom j l).foldl (processStep extract k) acc).1 =
      acc.1 ++ (List.enumFrom j l).map
        (fun p => enhanceStory p.2 (extract p.1 p.2)) := by
  intro l
  induction l with
  | nil => intro j acc _ _; simp
  | cons s rest ih =>
    intro j acc hj hall
    simp only [List.all_cons, Bool.and_eq_true] at hall
    have hc : ¬ (s.content = "") := by
      intro h
      simp [h] at hall
    simp only [List.enumFrom_cons, List.foldl_cons, List.map_cons]
    have hstep : processStep extract k acc (j, s) =
        (acc.1 ++ [enhanceStory s (extract j s)],
         acc.2 + (match extract j s with | .ok .. => 0 | .fail _ => 1)) := by
      simp [processStep, Nat.not_lt.mpr hj, hc]
    rw [hstep, ih (j + 1) _ (by omega) hall.2]
    simp

/-- C1 counterexample: over the stable three-item work list `c1Stories`
(whose middle story has empty content), a completed fresh run persists two
records; resuming with that persisted output of length 2 re-extracts and
re-appends the third story — an already-appended item is reprocessed, so
re-running over the run's own output is not a no-op.  This refutes the claim
that resumption never reprocesses an already-appended item under a stable
work list. -/
theorem claim1_counterexample :
    (processStories c1Extract c1Stories []).1 = [c1E c1A, c1E c1C] ∧
    (processStories c1Extract c1Stories [c1E c1A, c1E c1C]).1 =
      [c1E c1A, c1E c1C, c1E c1C] ∧
    (processStories c1Extract c1Stories
        ((processStories c1Extract c1Stories []).1)).1 ≠
      (processStories c1Extract c1Stories []).1 :=
  ⟨by decide, by decide, by decide⟩

/-- C1 amended: provided additionally that every work-list item has
non-empty content, a resumed run with persisted output of length
`k ≤ len(workList)` skips exactly the items at indices below `k` and
processes exactly the items at indices `k` through the end, in order —
the final output is the persisted prefix followed by the enhanced records of
the remaining items, and its length is the work-list length, so no
already-appended item is reprocessed and no unprocessed one is skipped. -/
theorem claim1_amended_resume_prefix (extract : Nat → Story → ExtractOutcome)
    (stories : List Story) (P : List Enhanced)
    (hk : P.length ≤ stories.length)
    (hc : stories.all (fun s => !(s.content == "")) = true) :
    (processStories extract stories P).1 =
      P ++ (List.enumFrom P.length (stories.drop P.length)).map
        (fun p => enhanceStory p.2 (extract p.1 p.2)) ∧
    (processStories extract stories P).1.length = stories.length := by
  have htl : (stories.take P.length).length = P.length := by
    rw [List.length_take]
    omega
  have h1 : stories.enum =
      (stories.take P.length).enumFrom 0 ++
        (stories.drop P.length).enumFrom P.length := by
    have ha := List.enumFrom_append (stories.take P.length)
      (stories.drop P.length) 0
    rw [List.take_append_drop, htl, Nat.zero_add] at ha
    rw [List.enum_eq_enumFrom, ha]
  have hc2 : (stories.drop P.length).all (fun s => !(s.content == "")) = true := by
    rw [List.all_eq_true] at hc ⊢
    intro s hs
    exact hc s (List.mem_of_mem_drop hs)
  have hmain : (processStories extract stories P).1 =
      P ++ (List.enumFrom P.length (stories.drop P.length)).map
        (fun p => enhanceStory p.2 (extract p.1 p.2)) := by
    unfold processStories
    rw [h1, List.foldl_append,
      process_skip extract P.length (stories.take P.length) 0 (P, 0)
        (by simp [htl]),
      process_run extract P.length (stories.drop P.length) P.length (P, 0)
        le_rfl hc2]
  refine ⟨hmain, ?_⟩
  rw [hmain]
  simp only [List.length_append, List.length_map, List.enumFrom_length,
    List.length_drop]
  omega

/-- Witness for C1 at a concrete input: three all-content stories resumed
from a persisted output of length 1. -/
theorem claim1_amended_resume_prefix_witness :
    ([c1E c1A] : List Enhanced).length ≤ w1Stories.length ∧
    w1Stories.all (fun s => !(s.content == "")) = true ∧
    ((processStories c1Extract w1Stories [c1E c1A]).1 =
        [c1E c1A] ++ (List.enumFrom ([c1E c1A] : List Enhanced).length
          (w1Stories.drop ([c1E c1A] : List Enhanced).length)).map
          (fun p => enhanceStory p.2 (c1Extract p.1 p.2)) ∧
      (processStories c1Extract w1Stories [c1E c1A]).1.length =
        w1Stories.length) :=
  ⟨by decide, by decide,
   claim1_amended_resume_prefix c1Extract w1Stories [c1E c1A] (by decide)
     (by decide)⟩

/-- With a fresh run (resume point 0) the number of appended records is the
number of work-list items with non-empty content. -/
theorem process_count_len (extract : Nat → Story → ExtractOutcome) :
    ∀ (l : List Story) (j : Nat) (acc : List Enhanced × Nat),
    ((List.enumFrom j l).foldl (processStep extract 0) acc).1.length =
      acc.1.length + (l.filter (fun s => !(s.content == ""))).length := by
  intro l
  induction l with
  | nil => intro j acc; simp
  | cons s rest ih =>
    intro j acc
    simp only [List.enumFrom_cons, List.foldl_cons, List.filter_cons]
    by_cases hcs : s.content = ""
    · have hstep : processStep extract 0 acc (j, s) = acc := by
        simp [processStep, hcs]
      rw [hstep, ih]
      simp [hcs]
    · have hstep : processStep extract 0 acc (j, s) =
          (acc.1 ++ [enhanceStory s (extract j s)],
           acc.2 + (match extract j s with | .ok .. => 0 | .fail _ => 1)) := by
        simp [processStep, hcs]
      rw [hstep, ih]
      simp [hcs]
      omega

/-- Counting both filter outcomes recovers the list length. -/
theorem filter_not_add_filter (p : Story → Bool) (l : List Story) :
    (l.filter (fun s => !(p s))).length + (l.filter p).length = l.length := by
  induction l with
  | nil => rfl
  | cons s rest ih =>
    by_cases h : p s <;> simp [List.filter_cons, h] <;> omega

/-- C5 counterexample: for the concrete five-story corpus with exactly one
empty-content story (which passes the exclusion filter unchanged), a
completed fresh all-successful run emits exactly the figures 5 loaded, 0
filtered, 5 sampled, 4 total processed, 4 successful of 4 — the
previously/newly-processed prints are gated on a resumed run and the error
print on errors having occurred, so neither appears.  No emitted figure
equals 1: the summary block has no skipped-for-no-content counter, so it
does not report the 1 skipped item the claim requires. -/
theorem claim5_counterexample :
    summaryFigures 5 0 5 []
        (processStories c5Extract c5Stories []) = [5, 0, 5, 4, 4, 4] ∧
    (1 : Nat) ∉ summaryFigures 5 0 5 []
        (processStories c5Extract c5Stories []) ∧
    (c5Stories.filter (fun s => s.content == "")).length = 1 ∧
    filterStories c5Stories = c5Stories ∧
    min 300 c5Stories.length = 5 :=
  ⟨by decide, by decide, by decide, by decide, by decide⟩

/-- C5 amended: for any five-story work list of which exactly one story has
empty content, a single fresh run to completion appends exactly 4 enhanced
records (the empty-content story is skipped without appending), and the
final summary emits the loaded, filtered and sampled figures followed
immediately by the total of 4 — no previously/newly-processed figures (their
print is gated on a resumed run, and this run is fresh) — then the error
count only if errors occurred, and the successful count with the total of 4
again; it contains no skipped-for-no-content count. -/
theorem claim5_amended_skip_scenario (extract : Nat → Story → ExtractOutcome)
    (stories : List Story) (h5 : stories.length = 5)
    (h1 : (stories.filter (fun s => s.content == "")).length = 1) :
    (processStories extract stories []).1.length = 4 ∧
    summaryFigures 5 0 5 [] (processStories extract stories []) =
      [5, 0, 5, 4] ++
      (if 0 < (processStories extract stories []).2
        then [(processStories extract stories []).2] ++
          (if 10 < (processStories extract stories []).2
            then [(processStories extract stories []).2 - 10] else [])
        else []) ++
      [((processStories extract stories []).1.filter
          (fun e => e.extractionErr.isNone)).length, 4] := by
  have hlen : (processStories extract stories []).1.length =
      (stories.filter (fun s => !(s.content == ""))).length := by
    unfold processStories
    rw [List.enum_eq_enumFrom]
    have h := process_count_len extract stories 0 (([] : List Enhanced), 0)
    simpa using h
  have h4 : (stories.filter (fun s => !(s.content == ""))).length = 4 := by
    have h := filter_not_add_filter (fun s => s.content == "") stories
    omega
  refine ⟨by omega, ?_⟩
  simp [summaryFigures, hlen, h4]

/-- Witness for C5 at the concrete five-story corpus. -/
theorem claim5_amended_skip_scenario_witness :
    c5Stories.length = 5 ∧
    (c5Stories.filter (fun s => s.content == "")).length = 1 ∧
    ((processStories c5Extract c5Stories []).1.length = 4 ∧
     summaryFigures 5 0 5 [] (processStories c5Extract c5Stories []) =
       [5, 0, 5, 4] ++
       (if 0 < (processStories c5Extract c5Stories []).2
         then [(processStories c5Extract c5Stories []).2] ++
           (if 10 < (processStories c5Extract c5Stories []).2
             then [(processStories c5Extract c5Stories []).2 - 10] else [])
         else []) ++
       [((processStories c5Extract c5Stories []).1.filter
           (fun e => e.extractionErr.isNone)).length, 4]) :=
  ⟨by decide, by decide,
   claim5_amended_skip_scenario c5Extract c5Stories (by decide) (by decide)⟩

/-! ## Claim C8: response-parser strategies -/

set_option maxRecDepth 40000 in
/-- C8 counterexample: on the concrete response `demo8` — a JSON object
embedded in prose with a stray trailing closing brace — the embedded code
cascade returns the default empty record, because its third strategy greedily
spans from the first opening brace to the last closing brace and that span
does not parse; the spec's described cascade, whose third strategy takes the
first balanced object-like substring, recovers the non-empty record instead.
The two results differ, refuting the claim that the code applies the spec's
three strategies. -/
theorem claim8_counterexample :
    extractParse miniLoads demo8 = defaultBatchJson ∧
    claimParse miniLoads demo8 = demo8Parsed ∧
    indLenJ (extractParse miniLoads demo8) = some 0 ∧
    indLenJ (claimParse miniLoads demo8) = some 1 ∧
    extractParse miniLoads demo8 ≠ claimParse miniLoads demo8 := by
  refine ⟨rfl, rfl, rfl, rfl, ?_⟩
  intro h
  have h5 := congrArg indLenJ h
  have h6 : indLenJ (extractParse miniLoads demo8) = some 0 := rfl
  have h7 : indLenJ (claimParse miniLoads demo8) = some 1 := rfl
  rw [h6, h7] at h5
  exact absurd (Option.some.inj h5) (by omega)

/-- C8 amended: the response parser applies exactly three strategies in
order, first success wins — (1) parse the full response text, (2) parse the
capture of the fenced-block pattern occurring anywhere in the text, (3) parse
the substring extending from the first opening brace to the last closing
brace — and when all three fail the batch yields the default record with
empty individuals, events and places lists rather than aborting. -/
theorem claim8_amended_strategy_cascade (jloads : String → Option MJson)
    (text : String) :
    extractParse jloads text =
      (([jloads text, (fencedCandidate text).bind jloads,
          (braceCandidate text).bind jloads].findSome? id).getD
        defaultBatchJson) := by
  unfold extractParse
  cases h1 : jloads text <;>
    cases h2 : (fencedCandidate text).bind jloads <;>
      cases h3 : (braceCandidate text).bind jloads <;>
        simp [List.findSome?, h1, h2, h3]
